import Mathlib

/-!
Verification of the adaptive-filter engine of the `dan-joe-shiny` repository.

The engine's core is the index combiner: given a table (a pandas DataFrame
in the source) and per-column widget states, it computes the set of row
identifiers passing all active per-column predicates.  Two implementations
appear in the source:

* `filter_idx` (src/app/app-breakdown/app-010-030-filter_index.py):
  starts from `set(df.index)` and intersects in the matched index set of
  each active filter, returning `list(idx)`;
* `data_filtered` (src/app-adaptive_filters/app-0010-010-2_filters.py):
  sequentially filters the dataframe column by column
  (`df = df.loc[df["day"].isin(...)]`, then the same for `time`).

A row of the demo tables carries the seven columns of the `tips` fixture.
Row identifiers (the pandas index) are natural numbers; a table is the
list of (row identifier, row) pairs in dataframe order.  Python `set`s of
row identifiers are modelled as `Finset ℕ`.
-/

/-- One row of the `tips` fixture table: the seven columns used by the
demo apps.  Monetary amounts are exact decimals, modelled as rationals. -/
structure Row where
  total_bill : ℚ
  tip : ℚ
  sex : String
  smoker : String
  day : String
  time : String
  size : ℕ
deriving DecidableEq, Repr

/-- A table: rows in dataframe order, each addressed by a stable row
identifier (the pandas index value). -/
abbrev Table := List (ℕ × Row)

/-- `df.index` as a list, in table order. -/
def indexList (t : Table) : List ℕ := t.map Prod.fst

/-- `set(df.index)`: the full set of row identifiers of the table. -/
def indexSet (t : Table) : Finset ℕ := (indexList t).toFinset

/-- The widget state of the two selectize inputs of the demo apps:
the selected day values and the selected time values.  The default
(no restriction) is the empty selection. -/
structure WidgetState where
  filter_day : List String
  filter_time : List String
deriving DecidableEq, Repr

/-- `set(df.loc[df["day"].isin(sel)].index)`: identifiers of rows whose
`day` value is in the selection. -/
def dayMatchedIdx (t : Table) (sel : List String) : Finset ℕ :=
  ((t.filter fun p => sel.contains p.2.day).map Prod.fst).toFinset

/-- `set(df.loc[df["time"].isin(sel)].index)`: identifiers of rows whose
`time` value is in the selection. -/
def timeMatchedIdx (t : Table) (sel : List String) : Finset ℕ :=
  ((t.filter fun p => sel.contains p.2.time).map Prod.fst).toFinset

/-- The reactive calc `filter_idx` of
src/app/app-breakdown/app-010-030-filter_index.py: start from
`set(df.index)`; if the day selection is truthy (non-empty) intersect in
its matched index set; likewise for the time selection. -/
def filter_idx (t : Table) (input : WidgetState) : Finset ℕ :=
  let idx := indexSet t
  let idx := if input.filter_day.isEmpty then idx
             else idx ∩ dayMatchedIdx t input.filter_day
  let idx := if input.filter_time.isEmpty then idx
             else idx ∩ timeMatchedIdx t input.filter_time
  idx

/-- The trailing `return list(idx)` of `filter_idx`: the set converted to
a list (modelled in first-occurrence table order; Python's `list(set)`
order is unspecified and nothing downstream depends on it). -/
def filter_idx_list (t : Table) (input : WidgetState) : List ℕ :=
  (indexList t).dedup.filter fun i => decide (i ∈ filter_idx t input)

/-- The reactive calc `data_filtered` of
src/app-adaptive_filters/app-0010-010-2_filters.py: the naive sequential
scan.  If the day selection is truthy, keep the rows whose `day` is in
it; then, if the time selection is truthy, keep the rows whose `time` is
in it. -/
def data_filtered (tips : Table) (input : WidgetState) : Table :=
  let df := tips
  let df := if input.filter_day.isEmpty then df
            else df.filter fun p => input.filter_day.contains p.2.day
  let df := if input.filter_time.isEmpty then df
            else df.filter fun p => input.filter_time.contains p.2.time
  df

/-- The 5-row `tips` fixture of
src/app-adaptive_filters/app-0010-010-2_filters.py (also used by the
override and reset demo apps), with the default pandas RangeIndex. -/
def tips5 : Table :=
  [ (0, ⟨mkRat 1699 100, mkRat 101 100, "Female", "No", "Sun", "Lunch", 2⟩),
    (1, ⟨mkRat 1034 100, mkRat 166 100, "Male", "No", "Sun", "Dinner", 3⟩),
    (2, ⟨mkRat 2101 100, mkRat 350 100, "Male", "No", "Sun", "Dinner", 3⟩),
    (3, ⟨mkRat 2368 100, mkRat 331 100, "Male", "No", "Fri", "Dinner", 2⟩),
    (4, ⟨mkRat 2459 100, mkRat 361 100, "Female", "Yes", "Sun", "Dinner", 4⟩) ]

/-- The 10-row `tips` fixture of
src/app/app-breakdown/app-010-030-filter_index.py, with the default
pandas RangeIndex. -/
def tips10 : Table :=
  [ (0, ⟨mkRat 1699 100, mkRat 101 100, "Female", "No", "Sun", "Dinner", 2⟩),
    (1, ⟨mkRat 1034 100, mkRat 166 100, "Male", "No", "Fri", "Dinner", 3⟩),
    (2, ⟨mkRat 2101 100, mkRat 350 100, "Male", "No", "Sun", "Lunch", 3⟩),
    (3, ⟨mkRat 2368 100, mkRat 331 100, "Male", "No", "Thu", "Dinner", 2⟩),
    (4, ⟨mkRat 2459 100, mkRat 361 100, "Female", "Yes", "Sun", "Lunch", 4⟩),
    (5, ⟨mkRat 2529 100, mkRat 471 100, "Male", "No", "Sun", "Dinner", 4⟩),
    (6, ⟨mkRat 877 100, mkRat 200 100, "Male", "No", "Sat", "Lunch", 2⟩),
    (7, ⟨mkRat 2688 100, mkRat 312 100, "Male", "Yes", "Sat", "Dinner", 4⟩),
    (8, ⟨mkRat 1504 100, mkRat 352 100, "Male", "No", "Sat", "Lunch", 2⟩),
    (9, ⟨mkRat 1478 100, mkRat 300 100, "Female", "Yes", "Sat", "Dinner", 2⟩) ]

/-- Modelled from the spec: one configured filter column of the
`shiny_adaptive_filter` package (imported by the demo apps but not part
of this repository's sources).  Per §4.2/§4.4 of the spec a column
carries its override directive — here only whether the override is
`disable` matters (`override = None` in the apps) — the current
`WidgetState` (a selection of values; the empty selection is the
default, "no restriction"), and the column accessor its predicate reads.
The predicate is membership of the row's value in the selection, as in
the demo apps' `isin` filters. -/
structure FilterColumn where
  disabled : Bool
  state : List String
  colValue : Row → String

/-- Modelled from the spec: the matched index set of one filter column —
identifiers of rows whose value for that column is in the selection. -/
def FilterColumn.matchedIdx (c : FilterColumn) (t : Table) : Finset ℕ :=
  ((t.filter fun p => c.state.contains (c.colValue p.2)).map Prod.fst).toFinset

/-- Modelled from the spec: one step of the Index Combiner (§4.4).
Disabled columns are skipped entirely; a column with default state
contributes no constraint; otherwise the column's matched index set is
intersected into the running set. -/
def combineStep (t : Table) (idx : Finset ℕ) (c : FilterColumn) : Finset ℕ :=
  if c.disabled then idx
  else if c.state.isEmpty then idx
  else idx ∩ c.matchedIdx t

/-- Modelled from the spec: `combine(table, widgetStates, widgetSpecs)`
(§4.4) — start with the full set of row identifiers and fold the
per-column step over the configured columns. -/
def combine (t : Table) (cols : List FilterColumn) : Finset ℕ :=
  cols.foldl (combineStep t) (indexSet t)

/-- Modelled from the spec: the Adaptive Filter Facade (§4.5) of the
`shiny_adaptive_filter` package — the table together with the configured
filter columns, whose states the Filter State Store mutates. -/
structure Facade where
  table : Table
  cols : List FilterColumn

/-- Modelled from the spec: the per-column configuration supplied at
facade creation — the override directive (disable or not) and the column
accessor; widget states are not part of it. -/
def Facade.config (f : Facade) : List (Bool × (Row → String)) :=
  f.cols.map fun c => (c.disabled, c.colValue)

/-- Modelled from the spec: `create(table, overrides)` (§4.5) — a fresh
facade whose every column starts at the default widget state. -/
def Facade.create (t : Table) (cfg : List (Bool × (Row → String))) : Facade :=
  ⟨t, cfg.map fun p => ⟨p.1, [], p.2⟩⟩

/-- Modelled from the spec: `resetAll()` (§4.3/§4.5) — restores every
column's widget state to the default. -/
def Facade.resetAll (f : Facade) : Facade :=
  ⟨f.table, f.cols.map fun c => ⟨c.disabled, [], c.colValue⟩⟩

/-- Modelled from the spec: the facade's live `ResultIndex` — the
combined index recomputed from the current widget states. -/
def Facade.resultIndex (f : Facade) : Finset ℕ :=
  combine f.table f.cols

/-- The discrete external events the engine reacts to (§5): a widget
value change, a reset invocation, and a read that recomputes the stale
result index. -/
inductive Event where
  | setDay (sel : List String)
  | setTime (sel : List String)
  | resetAll
  | recompute
deriving DecidableEq, Repr

/-- The session state of the two-filter demo app: the caller-supplied
table, the widget states, and the latest computed result index. -/
structure AppState where
  table : Table
  widgets : WidgetState
  resultIndex : Finset ℕ
deriving DecidableEq

/-- One event running to completion: widget changes and reset write only
the widget states; a recomputation reads the table and widget states and
writes only the derived result index. -/
def step (s : AppState) : Event → AppState
  | .setDay sel => { s with widgets := ⟨sel, s.widgets.filter_time⟩ }
  | .setTime sel => { s with widgets := ⟨s.widgets.filter_day, sel⟩ }
  | .resetAll => { s with widgets := ⟨[], []⟩ }
  | .recompute => { s with resultIndex := filter_idx s.table s.widgets }

/-- A sequence of events processed one after the other (single-threaded,
no preemption). -/
def run (s : AppState) (evs : List Event) : AppState :=
  evs.foldl step s

/-- The evaluation-order variant of `filter_idx`: the time filter's
matched set is intersected in before the day filter's. -/
def filter_idx_time_first (t : Table) (input : WidgetState) : Finset ℕ :=
  let idx := indexSet t
  let idx := if input.filter_time.isEmpty then idx
             else idx ∩ timeMatchedIdx t input.filter_time
  let idx := if input.filter_day.isEmpty then idx
             else idx ∩ dayMatchedIdx t input.filter_day
  idx

/-- A concrete configured column list, all states at default: the `day`
column enabled, the `time` column disabled via override. -/
def demoDefaultCols : List FilterColumn :=
  [⟨false, [], Row.day⟩, ⟨true, [], Row.time⟩]

theorem mem_indexSet {t : Table} {i : ℕ} :
    i ∈ indexSet t ↔ ∃ r, (i, r) ∈ t := by
  simp only [indexSet, indexList, List.mem_toFinset, List.mem_map]
  constructor
  · rintro ⟨⟨a, b⟩, hab, rfl⟩
    exact ⟨b, hab⟩
  · rintro ⟨r, hr⟩
    exact ⟨⟨i, r⟩, hr, rfl⟩

theorem mem_dayMatchedIdx {t : Table} {sel : List String} {i : ℕ} :
    i ∈ dayMatchedIdx t sel ↔ ∃ r, (i, r) ∈ t ∧ sel.contains r.day = true := by
  simp only [dayMatchedIdx, List.mem_toFinset, List.mem_map, List.mem_filter]
  constructor
  · rintro ⟨⟨a, b⟩, ⟨hab, hday⟩, rfl⟩
    exact ⟨b, hab, hday⟩
  · rintro ⟨r, hr, hday⟩
    exact ⟨⟨i, r⟩, ⟨hr, hday⟩, rfl⟩

theorem mem_timeMatchedIdx {t : Table} {sel : List String} {i : ℕ} :
    i ∈ timeMatchedIdx t sel ↔ ∃ r, (i, r) ∈ t ∧ sel.contains r.time = true := by
  simp only [timeMatchedIdx, List.mem_toFinset, List.mem_map, List.mem_filter]
  constructor
  · rintro ⟨⟨a, b⟩, ⟨hab, htime⟩, rfl⟩
    exact ⟨b, hab, htime⟩
  · rintro ⟨r, hr, htime⟩
    exact ⟨⟨i, r⟩, ⟨hr, htime⟩, rfl⟩

theorem row_unique {t : Table} (h : (indexList t).Nodup) {i : ℕ} {r r' : Row}
    (h1 : (i, r) ∈ t) (h2 : (i, r') ∈ t) : r = r' := by
  unfold indexList at h
  have := List.inj_on_of_nodup_map h h1 h2 rfl
  exact congrArg Prod.snd this

theorem mem_filter_idx {t : Table} {s : WidgetState} {i : ℕ} :
    i ∈ filter_idx t s ↔
      (∃ r, (i, r) ∈ t) ∧
      (s.filter_day.isEmpty = true ∨
        ∃ r, (i, r) ∈ t ∧ s.filter_day.contains r.day = true) ∧
      (s.filter_time.isEmpty = true ∨
        ∃ r, (i, r) ∈ t ∧ s.filter_time.contains r.time = true) := by
  by_cases hd : s.filter_day.isEmpty <;> by_cases ht : s.filter_time.isEmpty <;>
    simp [filter_idx, hd, ht, mem_indexSet, mem_dayMatchedIdx, mem_timeMatchedIdx]

theorem mem_data_filtered_index {t : Table} {s : WidgetState} {i : ℕ} :
    i ∈ indexSet (data_filtered t s) ↔
      ∃ r, (i, r) ∈ t ∧
        (s.filter_day.isEmpty = true ∨ s.filter_day.contains r.day = true) ∧
        (s.filter_time.isEmpty = true ∨ s.filter_time.contains r.time = true) := by
  by_cases hd : s.filter_day.isEmpty <;> by_cases ht : s.filter_time.isEmpty <;>
    simp [data_filtered, hd, ht, mem_indexSet, List.mem_filter]
  tauto

theorem foldl_combineStep_default (t : Table) (cols : List FilterColumn)
    (init : Finset ℕ) (h : ∀ c ∈ cols, c.state = []) :
    cols.foldl (combineStep t) init = init := by
  induction cols generalizing init with
  | nil => rfl
  | cons c cs ih =>
      have hc : c.state = [] := h c (by simp)
      have hstep : combineStep t init c = init := by
        simp [combineStep, hc]
      rw [List.foldl_cons, hstep]
      exact ih init fun d hd => h d (by simp [hd])

theorem filter_idx_subset_indexSet (t : Table) (s : WidgetState) :
    filter_idx t s ⊆ indexSet t := by
  unfold filter_idx
  by_cases hd : s.filter_day.isEmpty <;> by_cases ht : s.filter_time.isEmpty <;>
    simp only [hd, ht, if_true, if_false, Bool.false_eq_true, ite_true, ite_false]
  · exact subset_rfl
  · exact Finset.inter_subset_left
  · exact Finset.inter_subset_left
  · exact Finset.inter_subset_left.trans Finset.inter_subset_left

theorem mem_filter_idx_list {t : Table} {s : WidgetState} {i : ℕ} :
    i ∈ filter_idx_list t s ↔ i ∈ filter_idx t s := by
  unfold filter_idx_list
  rw [List.mem_filter]
  constructor
  · rintro ⟨-, h⟩
    exact of_decide_eq_true h
  · intro h
    refine ⟨?_, decide_eq_true h⟩
    rw [List.mem_dedup]
    have h2 := filter_idx_subset_indexSet t s h
    rwa [indexSet, List.mem_toFinset] at h2

/-- Claim C1: on every table whose row identifiers are unique (the
spec's Table invariant), the intersection-based combination `filter_idx`
returns exactly the set of rows kept by the naive sequential
column-by-column scan `data_filtered`. -/
theorem filter_idx_eq_naive_scan (t : Table) (s : WidgetState)
    (h : (indexList t).Nodup) :
    filter_idx t s = indexSet (data_filtered t s) := by
  ext i
  rw [mem_filter_idx, mem_data_filtered_index]
  constructor
  · rintro ⟨⟨r, hr⟩, hd, ht⟩
    refine ⟨r, hr, ?_, ?_⟩
    · rcases hd with hd | ⟨r', hr', hday⟩
      · exact Or.inl hd
      · exact Or.inr (row_unique h hr' hr ▸ hday)
    · rcases ht with ht | ⟨r', hr', htime⟩
      · exact Or.inl ht
      · exact Or.inr (row_unique h hr' hr ▸ htime)
  · rintro ⟨r, hr, hd, ht⟩
    refine ⟨⟨r, hr⟩, ?_, ?_⟩
    · rcases hd with hd | hday
      · exact Or.inl hd
      · exact Or.inr ⟨r, hr, hday⟩
    · rcases ht with ht | htime
      · exact Or.inl ht
      · exact Or.inr ⟨r, hr, htime⟩

/-- Witness for C1: the 5-row demo table has unique row identifiers, and
on it the two combiners agree for the Sun/Dinner selection. -/
theorem filter_idx_eq_naive_scan_witness :
    (indexList tips5).Nodup ∧
    filter_idx tips5 ⟨["Sun"], ["Dinner"]⟩ =
      indexSet (data_filtered tips5 ⟨["Sun"], ["Dinner"]⟩) := by
  have h : (indexList tips5).Nodup := by decide
  exact ⟨h, filter_idx_eq_naive_scan tips5 ⟨["Sun"], ["Dinner"]⟩ h⟩

/-- Claim C2: for every table and every configured column list (any
override map), if every column's widget state is at its default then
`combine` returns the full row-identifier set: a default-state column
contributes no constraint. -/
theorem combine_all_default_full (t : Table) (cols : List FilterColumn)
    (h : ∀ c ∈ cols, c.state = []) :
    combine t cols = indexSet t :=
  foldl_combineStep_default t cols (indexSet t) h

/-- Witness for C2: on the 5-row demo table with the concrete
all-default configuration, `combine` returns the full index set. -/
theorem combine_all_default_full_witness :
    (∀ c ∈ demoDefaultCols, c.state = []) ∧
    combine tips5 demoDefaultCols = indexSet tips5 := by
  have h : ∀ c ∈ demoDefaultCols, c.state = [] := by
    intro c hc
    simp only [demoDefaultCols, List.mem_cons, List.not_mem_nil, or_false] at hc
    rcases hc with rfl | rfl <;> rfl
  exact ⟨h, combine_all_default_full tips5 demoDefaultCols h⟩

/-- Counterexample to claim C3 as stated: on the 5-row demo table the
day={Sun} selection keeps 4 rows, not 3, and adding time={Dinner} keeps
3 rows, not 2. -/
theorem scenario_counts_counterexample :
    ¬((data_filtered tips5 ⟨["Sun"], []⟩).length = 3 ∧
      (data_filtered tips5 ⟨["Sun"], ["Dinner"]⟩).length = 2) := by
  decide

/-- Claim C3 (amended): on the 5-row demo table, day={Sun} yields
exactly the rows where day="Sun" — 4 of the 5 rows; additionally setting
time={Dinner} narrows to the rows where day="Sun" and time="Dinner" —
3 rows; resetting both selections to default restores all 5 rows. -/
theorem scenario_amended :
    data_filtered tips5 ⟨["Sun"], []⟩ = tips5.filter (fun p => p.2.day == "Sun") ∧
    (data_filtered tips5 ⟨["Sun"], []⟩).length = 4 ∧
    data_filtered tips5 ⟨["Sun"], ["Dinner"]⟩ =
      tips5.filter (fun p => p.2.day == "Sun" && p.2.time == "Dinner") ∧
    (data_filtered tips5 ⟨["Sun"], ["Dinner"]⟩).length = 3 ∧
    data_filtered tips5 ⟨[], []⟩ = tips5 ∧
    tips5.length = 5 := by
  decide

/-- Claim C4: `resetAll` on any facade brings the result index back to
the full row-identifier set of the table, identical to the result index
of a freshly created facade with the same table and override
configuration. -/
theorem resetAll_restores_full_index (f : Facade) :
    f.resetAll.resultIndex = indexSet f.table ∧
    f.resetAll.resultIndex = (Facade.create f.table f.config).resultIndex := by
  have h1 : f.resetAll.resultIndex = indexSet f.table := by
    unfold Facade.resultIndex Facade.resetAll combine
    apply foldl_combineStep_default
    intro c hc
    simp only [List.mem_map] at hc
    rcases hc with ⟨d, _, rfl⟩
    rfl
  have h2 : (Facade.create f.table f.config).resultIndex = indexSet f.table := by
    unfold Facade.resultIndex Facade.create Facade.config combine
    apply foldl_combineStep_default
    intro c hc
    simp only [List.mem_map] at hc
    rcases hc with ⟨p, _, rfl⟩
    rfl
  exact ⟨h1, h1.trans h2.symm⟩

/-- Claim C5: a column disabled via override never constrains the
result: the combined index is identical for any two widget states of the
disabled column, whatever the surrounding configuration. -/
theorem disabled_column_state_irrelevant (t : Table)
    (pre post : List FilterColumn) (v : Row → String) (s1 s2 : List String) :
    combine t (pre ++ ⟨true, s1, v⟩ :: post) =
    combine t (pre ++ ⟨true, s2, v⟩ :: post) := by
  unfold combine
  rw [List.foldl_append, List.foldl_append, List.foldl_cons, List.foldl_cons]
  have h1 : ∀ (idx : Finset ℕ) (s : List String),
      combineStep t idx ⟨true, s, v⟩ = idx := fun idx s => rfl
  rw [h1, h1]

/-- Claim C6: intersecting the day filter's matched set before the time
filter's yields the same result index as the other evaluation order. -/
theorem filter_idx_order_independent (t : Table) (s : WidgetState) :
    filter_idx t s = filter_idx_time_first t s := by
  unfold filter_idx filter_idx_time_first
  by_cases hd : s.filter_day.isEmpty <;> by_cases ht : s.filter_time.isEmpty <;>
    simp only [hd, ht, if_true, if_false, Bool.false_eq_true, ite_true, ite_false]
  exact Finset.inter_right_comm _ _ _

/-- Claim C7: when both filters are active and the intersection of the
full index set with the two matched sets is empty, `filter_idx` returns
the empty set as an ordinary value — the computation is total, there is
no failing path. -/
theorem empty_intersection_valid (t : Table) (s : WidgetState)
    (hd : s.filter_day.isEmpty = false) (ht : s.filter_time.isEmpty = false)
    (h : indexSet t ∩ dayMatchedIdx t s.filter_day ∩
          timeMatchedIdx t s.filter_time = ∅) :
    filter_idx t s = ∅ := by
  unfold filter_idx
  simp only [hd, ht, Bool.false_eq_true, ite_false]
  exact h

/-- Witness for C7: on the 10-row demo table, day={Thu} and time={Lunch}
match disjoint row sets, and `filter_idx` returns the empty set. -/
theorem empty_intersection_valid_witness :
    (["Thu"] : List String).isEmpty = false ∧
    (["Lunch"] : List String).isEmpty = false ∧
    indexSet tips10 ∩ dayMatchedIdx tips10 ["Thu"] ∩
      timeMatchedIdx tips10 ["Lunch"] = ∅ ∧
    filter_idx tips10 ⟨["Thu"], ["Lunch"]⟩ = ∅ := by
  have h : indexSet tips10 ∩ dayMatchedIdx tips10 ["Thu"] ∩
      timeMatchedIdx tips10 ["Lunch"] = ∅ := by decide
  exact ⟨rfl, rfl, h, empty_intersection_valid tips10 ⟨["Thu"], ["Lunch"]⟩ rfl rfl h⟩

/-- Claim C8: no sequence of widget changes, resets and recomputations
ever mutates the caller-supplied table: after running any event list the
table component of the state — every row identifier, column and value —
is unchanged. -/
theorem table_never_mutated (s : AppState) (evs : List Event) :
    (run s evs).table = s.table := by
  induction evs generalizing s with
  | nil => rfl
  | cons e es ih =>
      have h : (step s e).table = s.table := by cases e <;> rfl
      calc (run s (e :: es)).table = (run (step s e) es).table := rfl
        _ = (step s e).table := ih (step s e)
        _ = s.table := h

/-- Claim C9: the row-identifier list returned by the combiner has no
duplicates, and each of its elements is a row identifier of the supplied
table. -/
theorem filter_idx_list_nodup_subset (t : Table) (s : WidgetState) :
    (filter_idx_list t s).Nodup ∧ ∀ i ∈ filter_idx_list t s, i ∈ indexList t := by
  constructor
  · exact (List.nodup_dedup (indexList t)).filter _
  · intro i hi
    have h1 : i ∈ (indexList t).dedup := List.mem_of_mem_filter hi
    exact (List.mem_dedup).mp h1

/-- Witness for C9: on the 5-row demo table with day={Sun}, the
returned list has no duplicates and its member 0 is a row identifier of
the table. -/
theorem filter_idx_list_nodup_subset_witness :
    (filter_idx_list tips5 ⟨["Sun"], []⟩).Nodup ∧ 0 ∈ indexList tips5 := by
  refine ⟨(filter_idx_list_nodup_subset tips5 ⟨["Sun"], []⟩).1,
          (filter_idx_list_nodup_subset tips5 ⟨["Sun"], []⟩).2 0 ?_⟩
  decide

/-- Claim C10: activating the time filter on top of the day filter never
enlarges the result: the two-filter result index is a subset of the
day-only result index, itself a subset of the full index set. -/
theorem more_filters_shrink (t : Table) (daySel timeSel : List String) :
    filter_idx t ⟨daySel, timeSel⟩ ⊆ filter_idx t ⟨daySel, []⟩ ∧
    filter_idx t ⟨daySel, []⟩ ⊆ indexSet t := by
  constructor
  · unfold filter_idx
    by_cases ht : timeSel.isEmpty <;>
      simp only [ht, if_true, if_false, Bool.false_eq_true, ite_true, ite_false,
        List.isEmpty_nil]
    · exact subset_rfl
    · exact Finset.inter_subset_left
  · exact filter_idx_subset_indexSet t ⟨daySel, []⟩

/-- Witness for C10: the subset chain at the concrete Sun/Dinner
selection on the 5-row demo table. -/
theorem more_filters_shrink_witness :
    filter_idx tips5 ⟨["Sun"], ["Dinner"]⟩ ⊆ filter_idx tips5 ⟨["Sun"], []⟩ ∧
    filter_idx tips5 ⟨["Sun"], []⟩ ⊆ indexSet tips5 :=
  more_filters_shrink tips5 ["Sun"] ["Dinner"]
